import Mathlib

/-!
Verification development for the `atomata` particle-simulation crate.

The Rust sources are shallowly embedded in Lean:
* `f32` scalars are modelled as exact rationals (`ℚ`); the floating-point
  square root used by `cgmath`'s `magnitude`/`normalize` is threaded through
  the kinematic functions as an explicit parameter `sqrtFn : ℚ → ℚ`, since no
  claim under scrutiny depends on its values.
* `usize` arithmetic follows the Rust debug semantics: the one place the code
  can underflow (`num_particle_kinds - 1` with an empty kind list) is mapped
  to an explicit `crash` outcome, as is out-of-bounds slice indexing.
* Rendering (`PositionableRender`, `Sphere`, colors) carries no simulation
  state and is omitted; `set_position` only mirrors `Particle.position`.
-/

/-- Three-component vector over exact rationals, modelling `Vector3<f32>`. -/
structure Vec3 where
  x : ℚ
  y : ℚ
  z : ℚ
  deriving DecidableEq, Repr

instance : Add Vec3 := ⟨fun a b => ⟨a.x + b.x, a.y + b.y, a.z + b.z⟩⟩

instance : Sub Vec3 := ⟨fun a b => ⟨a.x - b.x, a.y - b.y, a.z - b.z⟩⟩

instance : Neg Vec3 := ⟨fun a => ⟨-a.x, -a.y, -a.z⟩⟩

/-- Componentwise scaling, modelling `Vector3<f32> * f32`. -/
def Vec3.smul (v : Vec3) (s : ℚ) : Vec3 := ⟨v.x * s, v.y * s, v.z * s⟩

/-- Componentwise division by a scalar, modelling `Vector3<f32> / f32`. -/
def Vec3.divScalar (v : Vec3) (s : ℚ) : Vec3 := ⟨v.x / s, v.y / s, v.z / s⟩

/-- Squared Euclidean magnitude; `magnitude()` itself is `sqrtFn` of this. -/
def Vec3.magnitudeSq (v : Vec3) : ℚ := v.x * v.x + v.y * v.y + v.z * v.z

/-- Rust `f32::signum` restricted to non-NaN inputs: `1` for non-negative
values (`+0.0` included), `-1` for negative ones. -/
def signumQ (q : ℚ) : ℚ := if q < 0 then -1 else 1

/-- `interaction_type` of `parameters.rs`. -/
inductive InteractionType where
  | Attraction
  | Repulsion
  | Neutral
  deriving DecidableEq, Repr

/-- `ParticleParameters` of `parameters.rs`. -/
structure ParticleParameters where
  id : Option ℕ
  mass : ℚ
  index : ℕ
  deriving DecidableEq, Repr

/-- `Parameters` of `parameters.rs`. -/
structure Parameters where
  amount : ℕ
  border : ℚ
  timestep : ℚ
  gravity_constant : ℚ
  friction : ℚ
  particle_parameters : List ParticleParameters
  interactions : List InteractionType
  max_velocity : ℚ
  bucket_size : ℚ
  deriving DecidableEq, Repr

/-- `impl Default for Parameters` (parameters.rs lines 43-80). -/
def Parameters.default : Parameters where
  amount := 10
  border := 200
  friction := 0.005
  timestep := 0.0002
  gravity_constant := 1
  particle_parameters :=
    [⟨none, 3, 0⟩, ⟨none, 250, 1⟩, ⟨none, 1000, 2⟩]
  interactions :=
    [InteractionType.Repulsion, InteractionType.Attraction,
     InteractionType.Attraction, InteractionType.Repulsion,
     InteractionType.Attraction, InteractionType.Neutral]
  max_velocity := 20000
  bucket_size := 10

/-- Outcome of a fallible Rust call: `Ok`, a returned `Err`, or a panic
(`crash`): debug-build integer underflow or slice indexing out of bounds. -/
inductive CallResult (α : Type) where
  | ok (val : α)
  | err (msg : String)
  | crash
  deriving DecidableEq, Repr

/-- The packed upper-triangular index `(i * (2k - i + 1)) / 2 + (j - i)`
from `interaction_by_indices` (parameters.rs line 98). -/
def packIndex (k i j : ℕ) : ℕ := i * (2 * k - i + 1) / 2 + (j - i)

/-- Row-by-row inverse of `packIndex`, used to establish bijectivity. -/
def unpackIndex : ℕ → ℕ → ℕ × ℕ
  | 0, _ => (0, 0)
  | k + 1, m =>
    if m < k + 1 then (0, m)
    else
      let p := unpackIndex k (m - (k + 1))
      (p.1 + 1, p.2 + 1)

/-- `Parameters::interaction_by_indices` (parameters.rs lines 91-101).
With an empty kind list the Rust expression `num_particle_kinds - 1`
underflows `usize` (a debug-build panic), modelled as `crash`; likewise the
slice access `self.interactions[index]` crashes when `index` is out of
range. -/
def Parameters.interaction_by_indices (p : Parameters) (i j : ℕ) :
    CallResult InteractionType :=
  let num_particle_kinds := p.particle_parameters.length
  if num_particle_kinds = 0 then CallResult.crash
  else if i > num_particle_kinds - 1 ∨ j > num_particle_kinds - 1 then
    CallResult.err "Index out of bounds"
  else
    let ij := if i > j then (j, i) else (i, j)
    let index := packIndex num_particle_kinds ij.1 ij.2
    match p.interactions.get? index with
    | some v => CallResult.ok v
    | none => CallResult.crash

/-- `Parameters::particle_parameters_by_index` (parameters.rs lines 103-105). -/
def Parameters.particle_parameters_by_index (p : Parameters) (index : ℕ) :
    Option ParticleParameters :=
  p.particle_parameters.find? (fun q => q.index = index)

/-- `StateVector` of particle.rs (lines 110-115). -/
structure StateVector where
  mass : ℤ
  position_bucket : ℤ × ℤ × ℤ
  velocity_bucket : ℤ × ℤ × ℤ
  deriving DecidableEq, Repr

/-- Rust's `f32 as i32` narrowing on an exact rational value: truncation
toward zero (saturation is never reached by the claims' inputs and is not
modelled). `Int.tdiv` is Lean's truncating (T-)division. -/
def truncQ (q : ℚ) : ℤ := Int.tdiv q.num q.den

/-- Modelled from the spec: "truncating the quotient toward zero" — floor
for non-negative values, ceiling for negative ones.  Spec-side definition,
to be compared with the source-side `truncQ`. -/
def truncTowardZero (q : ℚ) : ℤ := if q < 0 then ⌈q⌉ else ⌊q⌋

/-- `StateVector::new` (particle.rs lines 117-138): position and velocity
components are divided by `bucket_size` before narrowing, the mass is
narrowed directly. -/
def StateVector.new (mass : ℚ) (position : ℚ × ℚ × ℚ)
    (velocity : ℚ × ℚ × ℚ) (bucket_size : ℚ) : StateVector where
  mass := truncQ mass
  position_bucket :=
    (truncQ (position.1 / bucket_size), truncQ (position.2.1 / bucket_size),
     truncQ (position.2.2 / bucket_size))
  velocity_bucket :=
    (truncQ (velocity.1 / bucket_size), truncQ (velocity.2.1 / bucket_size),
     truncQ (velocity.2.2 / bucket_size))

/-- Sign-preserving per-axis clamp from `update_velocity`
(particle.rs lines 68-78): `v = v.signum() * max` when `|v| > max`. -/
def clampAxis (v max : ℚ) : ℚ := if |v| > max then signumQ v * max else v

/-- `Particle` (particle.rs lines 6-13).  The field the historical
particle.rs calls `id` is read back as `index` by lib.rs (the kind index);
the render-only `positionable` capability is omitted. -/
structure Particle where
  index : ℕ
  position : Vec3
  mass : ℚ
  velocity : Vec3
  max_velocity : ℚ
  deriving DecidableEq, Repr

/-- `Particle::new` (particle.rs lines 16-43).  The six `rand::random::<f32>()`
draws are passed in explicitly, in call order, as `r 0 .. r 5`. -/
def Particle.new (index : ℕ) (border mass max_velocity : ℚ)
    (r : ℕ → ℚ) : Particle where
  index := index
  position := ⟨(r 0 - 0.5) * border, (r 1 - 0.5) * border, (r 2 - 0.5) * border⟩
  mass := mass
  velocity :=
    ⟨(r 3 - 0.5) * max_velocity, (r 4 - 0.5) * max_velocity,
     (r 5 - 0.5) * max_velocity⟩
  max_velocity := max_velocity

/-- `Particle::update_velocity` (particle.rs lines 45-80).  `normalize()` is
`direction / magnitude`, and the magnitude is `sqrtFn` of the squared norm. -/
def Particle.update_velocity (sqrtFn : ℚ → ℚ) (p : Particle)
    (other_position : Vec3) (other_mass : ℚ)
    (interaction_type : InteractionType) (gravity_constant : ℚ) : Particle :=
  if interaction_type = InteractionType.Neutral then p
  else
    let direction := other_position - p.position
    let distance := sqrtFn direction.magnitudeSq
    if distance > 0.0001 then
      let force_magnitude :=
        gravity_constant * p.mass * other_mass / (distance * distance)
      let force := (direction.divScalar distance).smul force_magnitude
      let v :=
        if interaction_type = InteractionType.Attraction then
          p.velocity + force.divScalar p.mass
        else
          p.velocity - force.divScalar p.mass
      { p with
          velocity :=
            ⟨clampAxis v.x p.max_velocity, clampAxis v.y p.max_velocity,
             clampAxis v.z p.max_velocity⟩ }
    else p

/-- `Particle::compute_updated_position` (particle.rs lines 105-107). -/
def Particle.compute_updated_position (p : Particle) (time_step : ℚ) : Vec3 :=
  p.position + p.velocity.smul time_step

/-- `Particle::update_position` (particle.rs lines 82-94): one tentative
Euler move, a single reflection when the tentative position leaves the
spherical border, and an unconditional commit of the recomputed position. -/
def Particle.update_position (sqrtFn : ℚ → ℚ) (p : Particle)
    (parameters : Parameters) : Particle :=
  let updated_position := p.compute_updated_position parameters.timestep
  let distance_from_center := sqrtFn updated_position.magnitudeSq
  if |distance_from_center| > parameters.border then
    let q := { p with velocity := -p.velocity }
    { q with position := q.compute_updated_position parameters.timestep }
  else
    { p with position := updated_position }

/-- `Particle::apply_friction` (main.rs lines 68-71, the method lib.rs calls
on each particle): `velocity *= 1 - friction`. -/
def Particle.apply_friction (p : Particle) (friction : ℚ) : Particle :=
  { p with velocity := p.velocity.smul (1 - friction) }

/-- One inner-loop event of `update_particles`, recorded per particle:
a pairwise velocity update against partner `j`, a friction application, or
a position commit. -/
inductive StepEvent where
  | velUpdate (j : ℕ)
  | fricApply
  | posCommit
  deriving DecidableEq, Repr

/-- The inner `for j in 0..len` loop of `update_particles`
(lib.rs lines 383-397) for the particle at index `i`, instrumented with the
trace of events it performs.  `idxs`, `positions` and `masses` are the
pre-step clones of every particle's kind index, position and mass. -/
def innerLoop (sqrtFn : ℚ → ℚ) (parameters : Parameters) (idxs : List ℕ)
    (positions : List Vec3) (masses : List ℚ) (i : ℕ) :
    List ℕ → Particle → CallResult (Particle × List StepEvent)
  | [], p => CallResult.ok (p, [])
  | j :: js, p =>
    if i = j then innerLoop sqrtFn parameters idxs positions masses i js p
    else
      match parameters.interaction_by_indices p.index (idxs.getD j 0) with
      | CallResult.err e => CallResult.err e
      | CallResult.crash => CallResult.crash
      | CallResult.ok interaction_type =>
        let p1 := p.update_velocity sqrtFn (positions.getD j ⟨0, 0, 0⟩)
          (masses.getD j 0) interaction_type parameters.gravity_constant
        let p2 := p1.apply_friction parameters.friction
        let p3 := p2.update_position sqrtFn parameters
        match innerLoop sqrtFn parameters idxs positions masses i js p3 with
        | CallResult.ok (pFinal, evs) =>
          CallResult.ok
            (pFinal,
             StepEvent.velUpdate j :: StepEvent.fricApply ::
               StepEvent.posCommit :: evs)
        | CallResult.err e => CallResult.err e
        | CallResult.crash => CallResult.crash

/-- The outer `for (i, particle) in particles.iter_mut().enumerate()` loop of
`update_particles` (lib.rs lines 382-398): each particle, taken at its
enumeration index starting from `i0`, runs the inner loop over `0..n`. -/
def stepAll (sqrtFn : ℚ → ℚ) (parameters : Parameters) (idxs : List ℕ)
    (positions : List Vec3) (masses : List ℚ) (n : ℕ) :
    ℕ → List Particle → CallResult (List (Particle × List StepEvent))
  | _, [] => CallResult.ok []
  | i0, p :: ps =>
    match innerLoop sqrtFn parameters idxs positions masses i0
        (List.range n) p with
    | CallResult.ok pe =>
      match stepAll sqrtFn parameters idxs positions masses n (i0 + 1) ps with
      | CallResult.ok out => CallResult.ok (pe :: out)
      | CallResult.err e => CallResult.err e
      | CallResult.crash => CallResult.crash
    | CallResult.err e => CallResult.err e
    | CallResult.crash => CallResult.crash

/-- `update_particles` (lib.rs lines 377-401), instrumented with each
particle's event trace.  The id/position/mass clones are taken before the
loop, so every particle is advanced against the pre-step snapshot. -/
def update_particles_traced (sqrtFn : ℚ → ℚ) (particles : List Particle)
    (parameters : Parameters) : CallResult (List (Particle × List StepEvent)) :=
  let id_clones := particles.map (fun p => p.index)
  let postion_clones := particles.map (fun p => p.position)
  let mass_clones := particles.map (fun p => p.mass)
  let len := particles.length
  stepAll sqrtFn parameters id_clones postion_clones mass_clones len 0 particles

/-- `update_particles` (lib.rs lines 377-401): the traced step with the
traces discarded. -/
def update_particles (sqrtFn : ℚ → ℚ) (particles : List Particle)
    (parameters : Parameters) : CallResult (List Particle) :=
  match update_particles_traced sqrtFn particles parameters with
  | CallResult.ok out => CallResult.ok (out.map (fun pe => pe.1))
  | CallResult.err e => CallResult.err e
  | CallResult.crash => CallResult.crash

/-- `initialize_particle_kind` (lib.rs lines 354-375), headless case
(`context = None`): `amount` particles of one kind; particle `n` of the kind
consumes the six draws `r n 0 .. r n 5`. -/
def initialize_particle_kind (id : ℕ) (border mass : ℚ) (amount : ℕ)
    (max_velocity : ℚ) (r : ℕ → ℕ → ℚ) : List Particle :=
  (List.range amount).map (fun n => Particle.new id border mass max_velocity (r n))

/-- `create_particles` (lib.rs lines 334-352), headless case: one block of
`parameters.amount` particles per entry of `particle_parameters`, in list
order (colors are render-only and omitted).  Kind `k` draws from `r k`. -/
def create_particles (parameters : Parameters) (r : ℕ → ℕ → ℕ → ℚ) :
    List Particle :=
  (parameters.particle_parameters.enum).flatMap
    (fun kp =>
      initialize_particle_kind kp.2.index parameters.border kp.2.mass
        parameters.amount parameters.max_velocity (r kp.1))

/-- The per-parameter-set iteration budget of the search run
(lib.rs line 157). -/
def searchRunIterations : ℕ := 10000

/-- The particle population built for one parameter set of the sweep
(lib.rs line 156): the code passes `default_parameters` — the `Parameters`
captured from `run`'s setup — to `create_particles`, while `parameters`,
the set drawn from the parameter space, goes unused here. -/
def searchRunPopulation (default_parameters : Parameters)
    (parameters : Parameters) (r : ℕ → ℕ → ℕ → ℚ) : List Particle :=
  create_particles default_parameters r

/-- One simulation step inside the search run (lib.rs line 162): again
`default_parameters`, not `parameters`, is what `update_particles` receives. -/
def searchRunStep (sqrtFn : ℚ → ℚ) (default_parameters : Parameters)
    (parameters : Parameters) (particles : List Particle) :
    CallResult (List Particle) :=
  update_particles sqrtFn particles default_parameters

/-- The fixed discrete value lists of `Parameters::parameter_space`
(parameters.rs lines 110-116), hoisted to top level. -/
def sweepAmounts : List ℕ := [10, 20, 30, 100, 500, 1000]

/-- Border values of the sweep (parameters.rs line 111). -/
def sweepBorders : List ℚ := [200, 400, 600, 2000]

/-- Friction values of the sweep (parameters.rs line 112). -/
def sweepFrictions : List ℚ := [0, 0.005, 0.01, 2]

/-- Timestep values of the sweep (parameters.rs line 113). -/
def sweepTimesteps : List ℚ := [0.0002, 0.0004, 0.0006]

/-- Gravity-constant values of the sweep (parameters.rs line 114). -/
def sweepGravityConstants : List ℚ := [0.5, 1, 2, 3]

/-- Max-velocity values of the sweep (parameters.rs line 115). -/
def sweepMaxVelocities : List ℚ := [20000, 40000, 60000]

/-- Bucket-size values of the sweep (parameters.rs line 116). -/
def sweepBucketSizes : List ℚ := [2, 5, 10, 20, 30]

/-- The record pushed by the innermost loop body of `parameter_space`
(parameters.rs lines 125-164): the chosen scalar values combined with the
fixed 3-kind mass template and the fixed interaction template. -/
def mkSweepParameters (amount : ℕ)
    (border friction timestep gravity_constant max_velocity bucket_size : ℚ) :
    Parameters where
  amount := amount
  border := border
  timestep := timestep
  gravity_constant := gravity_constant
  friction := friction
  particle_parameters :=
    [⟨none, 3, 0⟩, ⟨none, 250, 1⟩, ⟨none, 1000, 2⟩]
  interactions :=
    [InteractionType.Repulsion, InteractionType.Attraction,
     InteractionType.Attraction, InteractionType.Repulsion,
     InteractionType.Attraction, InteractionType.Neutral]
  max_velocity := max_velocity
  bucket_size := bucket_size

/-- `Parameters::parameter_space` (parameters.rs lines 107-174): seven nested
`for` loops pushing one record per combination into an accumulator,
`amount` outermost, `bucket_size` innermost. -/
def Parameters.parameter_space : List Parameters :=
  sweepAmounts.foldl (fun acc amount =>
    sweepBorders.foldl (fun acc border =>
      sweepFrictions.foldl (fun acc friction =>
        sweepTimesteps.foldl (fun acc timestep =>
          sweepGravityConstants.foldl (fun acc gravity_constant =>
            sweepMaxVelocities.foldl (fun acc max_velocity =>
              sweepBucketSizes.foldl (fun acc bucket_size =>
                acc ++ [mkSweepParameters amount border friction timestep
                  gravity_constant max_velocity bucket_size]) acc) acc) acc)
          acc) acc) acc) []

/-- Modelled from the spec: "the full Cartesian product of a fixed set of
discrete value lists ... order = lexicographic nesting of the value lists,
outermost = amount" — the product written directly as nested list binds,
`amount` outermost and `bucket_size` innermost, to be compared with the
loop-based `Parameters.parameter_space`. -/
def parameterSpaceSpec : List Parameters :=
  sweepAmounts.flatMap (fun amount =>
    sweepBorders.flatMap (fun border =>
      sweepFrictions.flatMap (fun friction =>
        sweepTimesteps.flatMap (fun timestep =>
          sweepGravityConstants.flatMap (fun gravity_constant =>
            sweepMaxVelocities.flatMap (fun max_velocity =>
              sweepBucketSizes.map (fun bucket_size =>
                mkSweepParameters amount border friction timestep
                  gravity_constant max_velocity bucket_size)))))))

/-- A `Parameters` value with an empty kind list (and the matching empty
interaction table), the `k = 0` probe for the lookup's error behavior. -/
def emptyKindsParameters : Parameters where
  amount := 0
  border := 0
  timestep := 0
  gravity_constant := 0
  friction := 0
  particle_parameters := []
  interactions := []
  max_velocity := 0
  bucket_size := 0

/-- The parameter-space element with `amount = 20` and the first entry of
every other value list. -/
def sweepParametersAmount20 : Parameters :=
  mkSweepParameters 20 200 0 0.0002 0.5 20000 2

/-- A degenerate random stream: every draw is `0`. -/
def zeroDraws : ℕ → ℕ → ℕ → ℚ := fun _ _ _ => 0

/-- A degenerate square-root model that returns `0` on every input; with it
every pairwise distance test `distance > 0.0001` fails, so concrete step
evaluations exercise the loop structure without vector arithmetic. -/
def zeroSqrt : ℚ → ℚ := fun _ => 0

/-- A square-root model that returns `1` on every input; exact on inputs of
squared magnitude `1`. -/
def oneSqrt : ℚ → ℚ := fun _ => 1

/-- Concrete particle of kind 0 at the origin, at rest. -/
def particleA : Particle := ⟨0, ⟨0, 0, 0⟩, 3, ⟨0, 0, 0⟩, 20000⟩

/-- Concrete particle of kind 1, at rest. -/
def particleB : Particle := ⟨1, ⟨1, 0, 0⟩, 250, ⟨0, 0, 0⟩, 20000⟩

/-- Concrete particle of kind 2, at rest. -/
def particleC : Particle := ⟨2, ⟨2, 0, 0⟩, 1000, ⟨0, 0, 0⟩, 20000⟩

/-- Concrete particle of kind 0 with unit velocity on every axis. -/
def movingParticle : Particle := ⟨0, ⟨0, 0, 0⟩, 3, ⟨1, 1, 1⟩, 20000⟩

/-- Default parameters with friction and gravity switched off and a visible
timestep, the setting of the single-particle free-motion test. -/
def freeMotionParameters : Parameters :=
  { Parameters.default with friction := 0, gravity_constant := 0,
                            timestep := 1/10 }

/-- Parameters for the boundary probe: unit timestep, border 2. -/
def borderProbeParameters : Parameters :=
  { Parameters.default with timestep := 1, border := 2 }

/-- A particle that stays well inside `borderProbeParameters.border` after
one unit-timestep move. -/
def borderProbeParticle : Particle := ⟨0, ⟨0, 0, 0⟩, 1, ⟨1, 0, 0⟩, 1000⟩

/-- The friction-application count recorded for particle `t` by a traced
step, when the step succeeded and the particle exists. -/
def traceFricCount (r : CallResult (List (Particle × List StepEvent)))
    (t : ℕ) : Option ℕ :=
  match r with
  | CallResult.ok out => (out.get? t).map (fun pe => pe.2.count StepEvent.fricApply)
  | CallResult.err _ => none
  | CallResult.crash => none

lemma Vec3.add_def (a b : Vec3) :
    a + b = ⟨a.x + b.x, a.y + b.y, a.z + b.z⟩ := rfl

lemma Vec3.sub_def (a b : Vec3) :
    a - b = ⟨a.x - b.x, a.y - b.y, a.z - b.z⟩ := rfl

lemma Vec3.neg_def (a : Vec3) : -a = ⟨-a.x, -a.y, -a.z⟩ := rfl

lemma packIndex_zero (k j : ℕ) : packIndex k 0 j = j := by
  simp [packIndex]

lemma packIndex_succ (k i j : ℕ) (h : i ≤ k) :
    packIndex (k + 1) (i + 1) (j + 1) = (k + 1) + packIndex k i j := by
  unfold packIndex
  have h1 : i + 1 ≤ 2 * (k + 1) := by omega
  have h2 : i ≤ 2 * k := by omega
  have key : (i + 1) * (2 * (k + 1) - (i + 1) + 1)
      = 2 * (k + 1) + i * (2 * k - i + 1) := by
    zify [h1, h2]
    ring
  rw [key, Nat.succ_sub_succ]
  generalize i * (2 * k - i + 1) = a
  omega

lemma packIndex_lt (k : ℕ) :
    ∀ i j, i ≤ j → j < k → packIndex k i j < k * (k + 1) / 2 := by
  induction k with
  | zero => intro i j _ hj; omega
  | succ k ih =>
    intro i j hij hj
    have hstep : (k + 1) * (k + 1 + 1) / 2 = (k + 1) + k * (k + 1) / 2 := by
      have hx : (k + 1) * (k + 1 + 1) = 2 * (k + 1) + k * (k + 1) := by ring
      rw [hx]
      generalize k * (k + 1) = a
      omega
    cases i with
    | zero =>
      rw [packIndex_zero]
      have hk : 0 ≤ k * (k + 1) / 2 := Nat.zero_le _
      omega
    | succ i =>
      cases j with
      | zero => omega
      | succ j =>
        have hik : i ≤ k := by omega
        rw [packIndex_succ k i j hik]
        have hlt : packIndex k i j < k * (k + 1) / 2 :=
          ih i j (by omega) (by omega)
        omega

lemma unpack_pack (k : ℕ) :
    ∀ i j, i ≤ j → j < k → unpackIndex k (packIndex k i j) = (i, j) := by
  induction k with
  | zero => intro i j _ hj; omega
  | succ k ih =>
    intro i j hij hj
    cases i with
    | zero =>
      rw [packIndex_zero]
      simp [unpackIndex, hj]
    | succ i =>
      cases j with
      | zero => omega
      | succ j =>
        have hik : i ≤ k := by omega
        rw [packIndex_succ k i j hik]
        have hge : ¬ (k + 1 + packIndex k i j < k + 1) := by omega
        simp only [unpackIndex, hge, if_false]
        have hsub : k + 1 + packIndex k i j - (k + 1) = packIndex k i j := by
          omega
        rw [hsub, ih i j (by omega) (by omega)]

lemma pack_unpack (k : ℕ) :
    ∀ m, m < k * (k + 1) / 2 →
      (unpackIndex k m).1 ≤ (unpackIndex k m).2 ∧
      (unpackIndex k m).2 < k ∧
      packIndex k (unpackIndex k m).1 (unpackIndex k m).2 = m := by
  induction k with
  | zero => intro m hm; simp at hm
  | succ k ih =>
    intro m hm
    have hstep : (k + 1) * (k + 1 + 1) / 2 = (k + 1) + k * (k + 1) / 2 := by
      have hx : (k + 1) * (k + 1 + 1) = 2 * (k + 1) + k * (k + 1) := by ring
      rw [hx]
      generalize k * (k + 1) = a
      omega
    by_cases hmk : m < k + 1
    · simp [unpackIndex, hmk, packIndex_zero]
    · have hm2 : m - (k + 1) < k * (k + 1) / 2 := by omega
      obtain ⟨h1, h2, h3⟩ := ih (m - (k + 1)) hm2
      simp only [unpackIndex, hmk, if_false]
      refine ⟨by omega, by omega, ?_⟩
      rw [packIndex_succ k _ _ (by omega), h3]
      omega

lemma innerLoop_trace (sqrtFn : ℚ → ℚ) (parameters : Parameters)
    (idxs : List ℕ) (positions : List Vec3) (masses : List ℚ) (i : ℕ) :
    ∀ (js : List ℕ) (p pFinal : Particle) (evs : List StepEvent),
      innerLoop sqrtFn parameters idxs positions masses i js p
        = CallResult.ok (pFinal, evs) →
      evs = (js.filter (fun j => j != i)).flatMap
        (fun j => [StepEvent.velUpdate j, StepEvent.fricApply,
                   StepEvent.posCommit]) := by
  intro js
  induction js with
  | nil =>
    intro p pFinal evs h
    simp only [innerLoop] at h
    injection h with h
    injection h with _ h2
    simp [← h2]
  | cons j js ih =>
    intro p pFinal evs h
    simp only [innerLoop] at h
    by_cases hij : i = j
    · rw [if_pos hij] at h
      have := ih p pFinal evs h
      have hne : (j != i) = false := by simp [hij.symm]
      simp [List.filter_cons, hne, this]
    · rw [if_neg hij] at h
      rcases hint : parameters.interaction_by_indices p.index (idxs.getD j 0)
        with v | e | _ <;> rw [hint] at h
      · dsimp only at h
        rcases hrec : innerLoop sqrtFn parameters idxs positions masses i js
            (((p.update_velocity sqrtFn (positions.getD j ⟨0, 0, 0⟩)
              (masses.getD j 0) v parameters.gravity_constant).apply_friction
                parameters.friction).update_position sqrtFn parameters)
          with pe | e | _ <;> rw [hrec] at h
        · obtain ⟨pF, evs'⟩ := pe
          dsimp only at h
          injection h with h
          injection h with h1 h2
          have := ih _ pF evs' hrec
          have hne : (j != i) = true := by
            simp [Ne.symm hij]
          simp [← h2, List.filter_cons, hne, this]
        · exact absurd h (by simp)
        · exact absurd h (by simp)
      · exact absurd h (by simp)
      · exact absurd h (by simp)

lemma stepAll_get? (sqrtFn : ℚ → ℚ) (parameters : Parameters)
    (idxs : List ℕ) (positions : List Vec3) (masses : List ℚ) (n : ℕ) :
    ∀ (l : List Particle) (i0 : ℕ) (out : List (Particle × List StepEvent))
      (t : ℕ) (pe : Particle × List StepEvent),
      stepAll sqrtFn parameters idxs positions masses n i0 l
        = CallResult.ok out →
      out.get? t = some pe →
      ∃ p, l.get? t = some p ∧
        innerLoop sqrtFn parameters idxs positions masses (i0 + t)
          (List.range n) p = CallResult.ok pe := by
  intro l
  induction l with
  | nil =>
    intro i0 out t pe h hget
    simp only [stepAll] at h
    injection h with h
    rw [← h] at hget
    simp at hget
  | cons p ps ih =>
    intro i0 out t pe h hget
    simp only [stepAll] at h
    rcases hinner : innerLoop sqrtFn parameters idxs positions masses i0
        (List.range n) p with pe0 | e | _ <;> rw [hinner] at h
    · dsimp only at h
      rcases hrest : stepAll sqrtFn parameters idxs positions masses n
          (i0 + 1) ps with out' | e | _ <;> rw [hrest] at h
      · dsimp only at h
        injection h with h
        rw [← h] at hget
        cases t with
        | zero =>
          simp at hget
          refine ⟨p, by simp, ?_⟩
          rw [hget] at hinner
          simpa using hinner
        | succ t =>
          simp only [List.get?] at hget
          obtain ⟨q, hq1, hq2⟩ := ih (i0 + 1) out' t pe hrest hget
          refine ⟨q, by simpa using hq1, ?_⟩
          have heq : i0 + 1 + t = i0 + (t + 1) := by omega
          rw [← heq]
          exact hq2
      · exact absurd h (by simp)
      · exact absurd h (by simp)
    · exact absurd h (by simp)
    · exact absurd h (by simp)

lemma count_bind_fric (js : List ℕ) :
    ((js.flatMap (fun j => [StepEvent.velUpdate j, StepEvent.fricApply,
        StepEvent.posCommit])).count StepEvent.fricApply) = js.length := by
  induction js with
  | nil => simp
  | cons j js ih => simp [List.count_cons, ih]

lemma count_bind_pos (js : List ℕ) :
    ((js.flatMap (fun j => [StepEvent.velUpdate j, StepEvent.fricApply,
        StepEvent.posCommit])).count StepEvent.posCommit) = js.length := by
  induction js with
  | nil => simp
  | cons j js ih => simp [List.count_cons, ih]

lemma length_filter_range (n i : ℕ) (hi : i < n) :
    ((List.range n).filter (fun j => j != i)).length = n - 1 := by
  induction n with
  | zero => omega
  | succ n ih =>
    rw [List.range_succ, List.filter_append]
    by_cases hin : i = n
    · have hall : (List.range n).filter (fun j => j != i) = List.range n := by
        apply List.filter_eq_self.mpr
        intro a ha
        have : a < n := List.mem_range.mp ha
        simp [hin]
        omega
      have hlast : ([n].filter (fun j => j != i)) = [] := by
        simp [hin]
      rw [hall, hlast]
      simp
    · have hi' : i < n := by omega
      have hlast : ([n].filter (fun j => j != i)) = [n] := by
        simp
        omega
      rw [hlast, List.length_append, ih hi']
      simp
      omega

lemma flatMap_singleton_eq_map {α β : Type} (l : List α) (f : α → β) :
    (l.flatMap fun x => [f x]) = l.map f := by
  induction l with
  | nil => rfl
  | cons a l ih => simp [List.flatMap_cons, ih]

lemma foldl_append_eq_bind {α β : Type} (l : List α) (F : α → List β → List β)
    (G : α → List β) (h : ∀ a acc, F a acc = acc ++ G a) :
    ∀ acc, l.foldl (fun acc a => F a acc) acc = acc ++ l.flatMap G := by
  induction l with
  | nil => intro acc; simp
  | cons a l ih =>
    intro acc
    simp only [List.foldl_cons, List.flatMap_cons]
    rw [ih, h, List.append_assoc]

lemma length_bind_const {α β : Type} (l : List α) (f : α → List β) (c : ℕ)
    (h : ∀ a, (f a).length = c) : (l.flatMap f).length = l.length * c := by
  induction l with
  | nil => simp
  | cons a l ih =>
    simp only [List.flatMap_cons, List.length_append, List.length_cons, ih, h]
    ring

lemma parameter_space_eq_spec : Parameters.parameter_space = parameterSpaceSpec := by
  unfold Parameters.parameter_space parameterSpaceSpec
  have e1 : ∀ (amount : ℕ) (border friction timestep gravity_constant
      max_velocity : ℚ) (acc : List Parameters),
      sweepBucketSizes.foldl (fun acc bucket_size =>
        acc ++ [mkSweepParameters amount border friction timestep
          gravity_constant max_velocity bucket_size]) acc
      = acc ++ sweepBucketSizes.map (fun bucket_size =>
          mkSweepParameters amount border friction timestep gravity_constant
            max_velocity bucket_size) := by
    intro amount border friction timestep gravity_constant max_velocity acc
    have h0 := foldl_append_eq_bind sweepBucketSizes
      (fun bucket_size acc => acc ++ [mkSweepParameters amount border friction
        timestep gravity_constant max_velocity bucket_size])
      (fun bucket_size => [mkSweepParameters amount border friction timestep
        gravity_constant max_velocity bucket_size])
      (fun a acc => rfl) acc
    rw [flatMap_singleton_eq_map] at h0
    exact h0
  have e2 : ∀ (amount : ℕ) (border friction timestep gravity_constant : ℚ)
      (acc : List Parameters),
      sweepMaxVelocities.foldl (fun acc max_velocity =>
        sweepBucketSizes.foldl (fun acc bucket_size =>
          acc ++ [mkSweepParameters amount border friction timestep
            gravity_constant max_velocity bucket_size]) acc) acc
      = acc ++ sweepMaxVelocities.flatMap (fun max_velocity =>
          sweepBucketSizes.map (fun bucket_size =>
            mkSweepParameters amount border friction timestep gravity_constant
              max_velocity bucket_size)) := by
    intro amount border friction timestep gravity_constant acc
    exact foldl_append_eq_bind _ _ _
      (fun mv acc => e1 amount border friction timestep gravity_constant mv acc)
      acc
  have e3 : ∀ (amount : ℕ) (border friction timestep : ℚ)
      (acc : List Parameters),
      sweepGravityConstants.foldl (fun acc gravity_constant =>
        sweepMaxVelocities.foldl (fun acc max_velocity =>
          sweepBucketSizes.foldl (fun acc bucket_size =>
            acc ++ [mkSweepParameters amount border friction timestep
              gravity_constant max_velocity bucket_size]) acc) acc) acc
      = acc ++ sweepGravityConstants.flatMap (fun gravity_constant =>
          sweepMaxVelocities.flatMap (fun max_velocity =>
            sweepBucketSizes.map (fun bucket_size =>
              mkSweepParameters amount border friction timestep
                gravity_constant max_velocity bucket_size))) := by
    intro amount border friction timestep acc
    exact foldl_append_eq_bind _ _ _
      (fun g acc => e2 amount border friction timestep g acc) acc
  have e4 : ∀ (amount : ℕ) (border friction : ℚ) (acc : List Parameters),
      sweepTimesteps.foldl (fun acc timestep =>
        sweepGravityConstants.foldl (fun acc gravity_constant =>
          sweepMaxVelocities.foldl (fun acc max_velocity =>
            sweepBucketSizes.foldl (fun acc bucket_size =>
              acc ++ [mkSweepParameters amount border friction timestep
                gravity_constant max_velocity bucket_size]) acc) acc) acc) acc
      = acc ++ sweepTimesteps.flatMap (fun timestep =>
          sweepGravityConstants.flatMap (fun gravity_constant =>
            sweepMaxVelocities.flatMap (fun max_velocity =>
              sweepBucketSizes.map (fun bucket_size =>
                mkSweepParameters amount border friction timestep
                  gravity_constant max_velocity bucket_size)))) := by
    intro amount border friction acc
    exact foldl_append_eq_bind _ _ _
      (fun t acc => e3 amount border friction t acc) acc
  have e5 : ∀ (amount : ℕ) (border : ℚ) (acc : List Parameters),
      sweepFrictions.foldl (fun acc friction =>
        sweepTimesteps.foldl (fun acc timestep =>
          sweepGravityConstants.foldl (fun acc gravity_constant =>
            sweepMaxVelocities.foldl (fun acc max_velocity =>
              sweepBucketSizes.foldl (fun acc bucket_size =>
                acc ++ [mkSweepParameters amount border friction timestep
                  gravity_constant max_velocity bucket_size]) acc) acc) acc)
          acc) acc
      = acc ++ sweepFrictions.flatMap (fun friction =>
          sweepTimesteps.flatMap (fun timestep =>
            sweepGravityConstants.flatMap (fun gravity_constant =>
              sweepMaxVelocities.flatMap (fun max_velocity =>
                sweepBucketSizes.map (fun bucket_size =>
                  mkSweepParameters amount border friction timestep
                    gravity_constant max_velocity bucket_size))))) := by
    intro amount border acc
    exact foldl_append_eq_bind _ _ _
      (fun f acc => e4 amount border f acc) acc
  have e6 : ∀ (amount : ℕ) (acc : List Parameters),
      sweepBorders.foldl (fun acc border =>
        sweepFrictions.foldl (fun acc friction =>
          sweepTimesteps.foldl (fun acc timestep =>
            sweepGravityConstants.foldl (fun acc gravity_constant =>
              sweepMaxVelocities.foldl (fun acc max_velocity =>
                sweepBucketSizes.foldl (fun acc bucket_size =>
                  acc ++ [mkSweepParameters amount border friction timestep
                    gravity_constant max_velocity bucket_size]) acc) acc) acc)
            acc) acc) acc
      = acc ++ sweepBorders.flatMap (fun border =>
          sweepFrictions.flatMap (fun friction =>
            sweepTimesteps.flatMap (fun timestep =>
              sweepGravityConstants.flatMap (fun gravity_constant =>
                sweepMaxVelocities.flatMap (fun max_velocity =>
                  sweepBucketSizes.map (fun bucket_size =>
                    mkSweepParameters amount border friction timestep
                      gravity_constant max_velocity bucket_size)))))) := by
    intro amount acc
    exact foldl_append_eq_bind _ _ _ (fun b acc => e5 amount b acc) acc
  have e7 := foldl_append_eq_bind sweepAmounts _ _ (fun a acc => e6 a acc) []
  rw [e7, List.nil_append]

lemma parameterSpaceSpec_length : parameterSpaceSpec.length = 17280 := by
  unfold parameterSpaceSpec
  have h1 : ∀ (amount : ℕ) (border friction timestep gravity_constant : ℚ),
      (sweepMaxVelocities.flatMap (fun max_velocity =>
        sweepBucketSizes.map (fun bucket_size =>
          mkSweepParameters amount border friction timestep gravity_constant
            max_velocity bucket_size))).length = 15 := by
    intro amount border friction timestep gravity_constant
    rw [length_bind_const _ _ 5 (fun mv => by simp [sweepBucketSizes])]
    rfl
  have h2 : ∀ (amount : ℕ) (border friction timestep : ℚ),
      (sweepGravityConstants.flatMap (fun gravity_constant =>
        sweepMaxVelocities.flatMap (fun max_velocity =>
          sweepBucketSizes.map (fun bucket_size =>
            mkSweepParameters amount border friction timestep gravity_constant
              max_velocity bucket_size)))).length = 60 := by
    intro amount border friction timestep
    rw [length_bind_const _ _ 15
      (fun g => h1 amount border friction timestep g)]
    rfl
  have h3 : ∀ (amount : ℕ) (border friction : ℚ),
      (sweepTimesteps.flatMap (fun timestep =>
        sweepGravityConstants.flatMap (fun gravity_constant =>
          sweepMaxVelocities.flatMap (fun max_velocity =>
            sweepBucketSizes.map (fun bucket_size =>
              mkSweepParameters amount border friction timestep
                gravity_constant max_velocity bucket_size))))).length = 180 := by
    intro amount border friction
    rw [length_bind_const _ _ 60 (fun t => h2 amount border friction t)]
    rfl
  have h4 : ∀ (amount : ℕ) (border : ℚ),
      (sweepFrictions.flatMap (fun friction =>
        sweepTimesteps.flatMap (fun timestep =>
          sweepGravityConstants.flatMap (fun gravity_constant =>
            sweepMaxVelocities.flatMap (fun max_velocity =>
              sweepBucketSizes.map (fun bucket_size =>
                mkSweepParameters amount border friction timestep
                  gravity_constant max_velocity bucket_size)))))).length
        = 720 := by
    intro amount border
    rw [length_bind_const _ _ 180 (fun f => h3 amount border f)]
    rfl
  have h5 : ∀ (amount : ℕ),
      (sweepBorders.flatMap (fun border =>
        sweepFrictions.flatMap (fun friction =>
          sweepTimesteps.flatMap (fun timestep =>
            sweepGravityConstants.flatMap (fun gravity_constant =>
              sweepMaxVelocities.flatMap (fun max_velocity =>
                sweepBucketSizes.map (fun bucket_size =>
                  mkSweepParameters amount border friction timestep
                    gravity_constant max_velocity bucket_size))))))).length
        = 2880 := by
    intro amount
    rw [length_bind_const _ _ 720 (fun b => h4 amount b)]
    rfl
  rw [length_bind_const _ _ 2880 (fun a => h5 a)]
  rfl

lemma mem_parameterSpaceSpec_iff (p : Parameters) :
    p ∈ parameterSpaceSpec ↔
      ∃ amount ∈ sweepAmounts, ∃ border ∈ sweepBorders,
        ∃ friction ∈ sweepFrictions, ∃ timestep ∈ sweepTimesteps,
          ∃ gravity_constant ∈ sweepGravityConstants,
            ∃ max_velocity ∈ sweepMaxVelocities,
              ∃ bucket_size ∈ sweepBucketSizes,
                mkSweepParameters amount border friction timestep
                  gravity_constant max_velocity bucket_size = p := by
  simp only [parameterSpaceSpec, List.mem_flatMap, List.mem_map]

lemma truncQ_nonneg_eq_floor (q : ℚ) (h : 0 ≤ q) : truncQ q = ⌊q⌋ := by
  unfold truncQ
  rw [Rat.floor_def]
  exact Int.tdiv_eq_ediv (Rat.num_nonneg.mpr h) (by positivity)

lemma truncQ_eq_truncTowardZero (q : ℚ) : truncQ q = truncTowardZero q := by
  unfold truncTowardZero
  by_cases h : q < 0
  · rw [if_pos h]
    have hneg : truncQ q = -truncQ (-q) := by
      unfold truncQ
      rw [Rat.neg_num, Rat.neg_den, Int.neg_tdiv]
      ring
    rw [hneg, truncQ_nonneg_eq_floor (-q) (by linarith)]
    rw [show (⌈q⌉ : ℤ) = -⌊-q⌋ by rw [Int.floor_neg]; ring]
  · rw [if_neg h]
    exact truncQ_nonneg_eq_floor q (by linarith)

lemma create_particles_length (parameters : Parameters) (r : ℕ → ℕ → ℕ → ℚ) :
    (create_particles parameters r).length
      = parameters.particle_parameters.length * parameters.amount := by
  unfold create_particles
  rw [length_bind_const _ _ parameters.amount
    (fun kp => by simp [initialize_particle_kind])]
  simp

lemma abs_clampAxis_le (v max : ℚ) (h : 0 ≤ max) : |clampAxis v max| ≤ max := by
  unfold clampAxis
  by_cases hc : |v| > max
  · rw [if_pos hc]
    have habs : |signumQ v * max| = max := by
      unfold signumQ
      split_ifs <;> simp [abs_mul, abs_of_nonneg h]
    exact le_of_eq habs
  · rw [if_neg hc]
    exact le_of_not_lt hc

lemma interaction_by_indices_symm (p : Parameters) (i j : ℕ) :
    p.interaction_by_indices i j = p.interaction_by_indices j i := by
  unfold Parameters.interaction_by_indices
  by_cases h0 : p.particle_parameters.length = 0
  · simp [h0]
  · simp only [if_neg h0]
    by_cases hg : i > p.particle_parameters.length - 1 ∨
        j > p.particle_parameters.length - 1
    · have hg2 : j > p.particle_parameters.length - 1 ∨
          i > p.particle_parameters.length - 1 := Or.symm hg
      simp only [if_pos hg, if_pos hg2]
    · have hg2 : ¬ (j > p.particle_parameters.length - 1 ∨
          i > p.particle_parameters.length - 1) := fun h => hg (Or.symm h)
      simp only [if_neg hg, if_neg hg2]
      rcases Nat.lt_trichotomy i j with hlt | heq | hgt
      · have h1 : ¬ (i > j) := by omega
        have h2 : j > i := by omega
        simp only [if_neg h1, if_pos h2]
      · subst heq
        simp
      · have h1 : i > j := by omega
        have h2 : ¬ (j > i) := by omega
        simp only [if_pos h1, if_neg h2]

lemma interaction_by_indices_eq (p : Parameters) (i j : ℕ)
    (h0 : ¬ (p.particle_parameters.length = 0))
    (hg : ¬ (i > p.particle_parameters.length - 1 ∨
      j > p.particle_parameters.length - 1)) :
    p.interaction_by_indices i j =
      match p.interactions.get? (packIndex p.particle_parameters.length
          (if i > j then (j, i) else (i, j)).1
          (if i > j then (j, i) else (i, j)).2) with
      | some v => CallResult.ok v
      | none => CallResult.crash := by
  unfold Parameters.interaction_by_indices
  rw [if_neg h0, if_neg hg]

lemma interaction_by_indices_ok (p : Parameters) (i j : ℕ)
    (hlen : p.interactions.length =
      p.particle_parameters.length * (p.particle_parameters.length + 1) / 2)
    (hi : i < p.particle_parameters.length)
    (hj : j < p.particle_parameters.length) :
    ∃ v, p.interaction_by_indices i j = CallResult.ok v := by
  have h0 : ¬ (p.particle_parameters.length = 0) := by omega
  have hg : ¬ (i > p.particle_parameters.length - 1 ∨
      j > p.particle_parameters.length - 1) := by omega
  rw [interaction_by_indices_eq p i j h0 hg]
  have hpair : (if i > j then (j, i) else (i, j)).1
      ≤ (if i > j then (j, i) else (i, j)).2
      ∧ (if i > j then (j, i) else (i, j)).2 < p.particle_parameters.length := by
    refine ⟨?_, ?_⟩ <;> split_ifs <;> simp <;> omega
  have hidx : packIndex p.particle_parameters.length
      (if i > j then (j, i) else (i, j)).1
      (if i > j then (j, i) else (i, j)).2 < p.interactions.length := by
    rw [hlen]
    exact packIndex_lt p.particle_parameters.length _ _ hpair.1 hpair.2
  rcases hq : p.interactions.get? (packIndex p.particle_parameters.length
      (if i > j then (j, i) else (i, j)).1
      (if i > j then (j, i) else (i, j)).2) with _ | v
  · exact absurd (List.get?_eq_none.mp hq) (by omega)
  · exact ⟨v, rfl⟩

/-- C4 (amended): for every particle snapshot and bucket_size > 0, the
position and velocity components of the derived StateVector are obtained by
dividing the corresponding continuous component by `bucket_size` and
truncating toward zero, while the mass component is obtained by truncating
the mass itself toward zero, without dividing it by `bucket_size`. -/
theorem stateVector_buckets_truncate_toward_zero (mass : ℚ)
    (position velocity : ℚ × ℚ × ℚ) (bucket_size : ℚ)
    (hbs : 0 < bucket_size) :
    StateVector.new mass position velocity bucket_size =
      { mass := truncTowardZero mass,
        position_bucket :=
          (truncTowardZero (position.1 / bucket_size),
           truncTowardZero (position.2.1 / bucket_size),
           truncTowardZero (position.2.2 / bucket_size)),
        velocity_bucket :=
          (truncTowardZero (velocity.1 / bucket_size),
           truncTowardZero (velocity.2.1 / bucket_size),
           truncTowardZero (velocity.2.2 / bucket_size)) } := by
  unfold StateVector.new
  simp [truncQ_eq_truncTowardZero]

/-- C4 witness: the amended statement evaluated at mass 5, position
(1, -3, 7), velocity (0, 0, 0), bucket_size 2. -/
theorem stateVector_buckets_truncate_toward_zero_witness :
    (0 : ℚ) < 2 ∧
    StateVector.new 5 (1, -3, 7) (0, 0, 0) 2 =
      { mass := truncTowardZero 5,
        position_bucket :=
          (truncTowardZero ((1 : ℚ) / 2), truncTowardZero ((-3 : ℚ) / 2),
           truncTowardZero ((7 : ℚ) / 2)),
        velocity_bucket :=
          (truncTowardZero ((0 : ℚ) / 2), truncTowardZero ((0 : ℚ) / 2),
           truncTowardZero ((0 : ℚ) / 2)) } :=
  ⟨by norm_num,
   stateVector_buckets_truncate_toward_zero 5 (1, -3, 7) (0, 0, 0) 2
     (by norm_num)⟩

/-- C4 counterexample: at mass 5 and bucket_size 2 the code stores mass
bucket 5, while the claim's mass/bucket_size truncation would give 2. -/
theorem stateVector_mass_not_divided_counterexample :
    (StateVector.new 5 (0, 0, 0) (0, 0, 0) 2).mass = 5 ∧
    truncTowardZero ((5 : ℚ) / 2) = 2 ∧ (5 : ℤ) ≠ 2 := by
  refine ⟨by decide, ?_, by decide⟩
  norm_num [truncTowardZero]

/-- C5: for every Parameters value with at least one kind,
`interaction_by_indices` is symmetric on valid index pairs, and the packed
index map `(i, j) ↦ i*(2k - i + 1)/2 + (j - i)` is a bijection from the
unordered pairs (with repetition) over `{0..k-1}` onto
`{0..k*(k+1)/2 - 1}`. -/
theorem interaction_symmetric_and_packing_bijective (p : Parameters)
    (hk : 1 ≤ p.particle_parameters.length) :
    (∀ i j, i < p.particle_parameters.length →
        j < p.particle_parameters.length →
        p.interaction_by_indices i j = p.interaction_by_indices j i) ∧
    Set.BijOn
      (fun q : ℕ × ℕ => packIndex p.particle_parameters.length q.1 q.2)
      {q : ℕ × ℕ | q.1 ≤ q.2 ∧ q.2 < p.particle_parameters.length}
      (Set.Iio (p.particle_parameters.length *
        (p.particle_parameters.length + 1) / 2)) := by
  refine ⟨fun i j _ _ => interaction_by_indices_symm p i j, ?_, ?_, ?_⟩
  · intro q hq
    exact Set.mem_Iio.mpr
      (packIndex_lt p.particle_parameters.length q.1 q.2 hq.1 hq.2)
  · intro q hq q' hq' heq
    have h1 := unpack_pack p.particle_parameters.length q.1 q.2 hq.1 hq.2
    have h2 := unpack_pack p.particle_parameters.length q'.1 q'.2 hq'.1 hq'.2
    have hpair : (q.1, q.2) = (q'.1, q'.2) := by
      rw [← h1, ← h2]
      exact congrArg (unpackIndex p.particle_parameters.length) heq
    calc q = (q.1, q.2) := rfl
      _ = (q'.1, q'.2) := hpair
      _ = q' := rfl
  · intro m hm
    obtain ⟨h1, h2, h3⟩ :=
      pack_unpack p.particle_parameters.length m (Set.mem_Iio.mp hm)
    exact ⟨unpackIndex p.particle_parameters.length m, ⟨h1, h2⟩, h3⟩

/-- C5 witness: the symmetry-and-bijectivity statement instantiated at the
default parameters (3 kinds). -/
theorem interaction_symmetric_and_packing_bijective_witness :
    1 ≤ Parameters.default.particle_parameters.length ∧
    ((∀ i j, i < Parameters.default.particle_parameters.length →
        j < Parameters.default.particle_parameters.length →
        Parameters.default.interaction_by_indices i j
          = Parameters.default.interaction_by_indices j i) ∧
    Set.BijOn
      (fun q : ℕ × ℕ =>
        packIndex Parameters.default.particle_parameters.length q.1 q.2)
      {q : ℕ × ℕ | q.1 ≤ q.2 ∧
        q.2 < Parameters.default.particle_parameters.length}
      (Set.Iio (Parameters.default.particle_parameters.length *
        (Parameters.default.particle_parameters.length + 1) / 2))) :=
  ⟨by decide,
   interaction_symmetric_and_packing_bijective Parameters.default (by decide)⟩

/-- C6 (amended): for Parameters with at least one kind and a full
interaction table of k*(k+1)/2 entries, `interaction_by_indices i j`
returns the IndexOutOfRange error exactly when `i ≥ k` or `j ≥ k`, and
returns an interaction policy otherwise.  (When `k = 0` the Rust code
panics on `usize` underflow instead of returning the error; see the
counterexample.) -/
theorem interaction_error_iff_out_of_bounds (p : Parameters) (i j : ℕ)
    (hk : 1 ≤ p.particle_parameters.length)
    (hlen : p.interactions.length =
      p.particle_parameters.length * (p.particle_parameters.length + 1) / 2) :
    (p.interaction_by_indices i j = CallResult.err "Index out of bounds" ↔
      (p.particle_parameters.length ≤ i ∨ p.particle_parameters.length ≤ j)) ∧
    (i < p.particle_parameters.length → j < p.particle_parameters.length →
      ∃ v, p.interaction_by_indices i j = CallResult.ok v) := by
  have h0 : ¬ (p.particle_parameters.length = 0) := by omega
  constructor
  · constructor
    · intro herr
      by_contra hin
      push_neg at hin
      obtain ⟨v, hv⟩ :=
        interaction_by_indices_ok p i j hlen (by omega) (by omega)
      rw [herr] at hv
      exact absurd hv (by simp)
    · intro hout
      unfold Parameters.interaction_by_indices
      rw [if_neg h0, if_pos (by omega)]
  · intro hi hj
    exact interaction_by_indices_ok p i j hlen hi hj

/-- C6 witness: the amended statement at the default parameters (3 kinds,
6 interaction entries), probe indices i = 1, j = 5. -/
theorem interaction_error_iff_out_of_bounds_witness :
    1 ≤ Parameters.default.particle_parameters.length ∧
    Parameters.default.interactions.length =
      Parameters.default.particle_parameters.length *
        (Parameters.default.particle_parameters.length + 1) / 2 ∧
    ((Parameters.default.interaction_by_indices 1 5
        = CallResult.err "Index out of bounds" ↔
      (Parameters.default.particle_parameters.length ≤ 1 ∨
        Parameters.default.particle_parameters.length ≤ 5)) ∧
    (1 < Parameters.default.particle_parameters.length →
      5 < Parameters.default.particle_parameters.length →
      ∃ v, Parameters.default.interaction_by_indices 1 5
        = CallResult.ok v)) :=
  ⟨by decide, by decide,
   interaction_error_iff_out_of_bounds Parameters.default 1 5 (by decide)
     (by decide)⟩

/-- C6 counterexample: with zero kinds the lookup panics (usize underflow
in `num_particle_kinds - 1`) instead of returning the IndexOutOfRange
error the claim requires for every call. -/
theorem empty_kinds_lookup_crashes_counterexample :
    emptyKindsParameters.interaction_by_indices 0 0 = CallResult.crash ∧
    emptyKindsParameters.interaction_by_indices 0 0
      ≠ CallResult.err "Index out of bounds" := by
  constructor <;> decide

/-- C7: after a call to `update_velocity` with a non-Neutral policy —
arbitrary positions, arbitrarily large masses and gravity constant, any
square-root model — no velocity component's magnitude exceeds
`max_velocity`: unconditionally whenever a force is actually applied
(`distance > 1e-4`), and, when the epsilon guard skips the force, because
the velocity is left unchanged, so any in-range velocity stays in range.
The particle's `max_velocity` itself is untouched. -/
theorem update_velocity_components_clamped (sqrtFn : ℚ → ℚ) (p : Particle)
    (other_position : Vec3) (other_mass : ℚ)
    (interaction_type : InteractionType) (gravity_constant : ℚ)
    (hit : interaction_type ≠ InteractionType.Neutral)
    (hm : 0 ≤ p.max_velocity) :
    (sqrtFn (other_position - p.position).magnitudeSq > 0.0001 →
      |(p.update_velocity sqrtFn other_position other_mass interaction_type
          gravity_constant).velocity.x| ≤ p.max_velocity ∧
      |(p.update_velocity sqrtFn other_position other_mass interaction_type
          gravity_constant).velocity.y| ≤ p.max_velocity ∧
      |(p.update_velocity sqrtFn other_position other_mass interaction_type
          gravity_constant).velocity.z| ≤ p.max_velocity) ∧
    ((|p.velocity.x| ≤ p.max_velocity ∧ |p.velocity.y| ≤ p.max_velocity ∧
        |p.velocity.z| ≤ p.max_velocity) →
      |(p.update_velocity sqrtFn other_position other_mass interaction_type
          gravity_constant).velocity.x| ≤ p.max_velocity ∧
      |(p.update_velocity sqrtFn other_position other_mass interaction_type
          gravity_constant).velocity.y| ≤ p.max_velocity ∧
      |(p.update_velocity sqrtFn other_position other_mass interaction_type
          gravity_constant).velocity.z| ≤ p.max_velocity) ∧
    (p.update_velocity sqrtFn other_position other_mass interaction_type
        gravity_constant).max_velocity = p.max_velocity := by
  simp only [Particle.update_velocity, if_neg hit]
  split_ifs with hd hattr
  · exact
      ⟨fun _ =>
        ⟨abs_clampAxis_le _ _ hm, abs_clampAxis_le _ _ hm,
         abs_clampAxis_le _ _ hm⟩,
       fun _ =>
        ⟨abs_clampAxis_le _ _ hm, abs_clampAxis_le _ _ hm,
         abs_clampAxis_le _ _ hm⟩,
       rfl⟩
  · exact
      ⟨fun _ =>
        ⟨abs_clampAxis_le _ _ hm, abs_clampAxis_le _ _ hm,
         abs_clampAxis_le _ _ hm⟩,
       fun _ =>
        ⟨abs_clampAxis_le _ _ hm, abs_clampAxis_le _ _ hm,
         abs_clampAxis_le _ _ hm⟩,
       rfl⟩
  · exact ⟨fun h => absurd h hd, fun hb => hb, rfl⟩

/-- C7 witness: the clamping statement at a concrete call — the zero
square-root model (so the epsilon guard fails), particle A against
particle B's position, Attraction, unit gravity. -/
theorem update_velocity_components_clamped_witness :
    InteractionType.Attraction ≠ InteractionType.Neutral ∧
    (0 : ℚ) ≤ particleA.max_velocity ∧
    ((zeroSqrt (particleB.position - particleA.position).magnitudeSq > 0.0001 →
      |(particleA.update_velocity zeroSqrt particleB.position 250
          InteractionType.Attraction 1).velocity.x| ≤ particleA.max_velocity ∧
      |(particleA.update_velocity zeroSqrt particleB.position 250
          InteractionType.Attraction 1).velocity.y| ≤ particleA.max_velocity ∧
      |(particleA.update_velocity zeroSqrt particleB.position 250
          InteractionType.Attraction 1).velocity.z| ≤ particleA.max_velocity) ∧
    ((|particleA.velocity.x| ≤ particleA.max_velocity ∧
        |particleA.velocity.y| ≤ particleA.max_velocity ∧
        |particleA.velocity.z| ≤ particleA.max_velocity) →
      |(particleA.update_velocity zeroSqrt particleB.position 250
          InteractionType.Attraction 1).velocity.x| ≤ particleA.max_velocity ∧
      |(particleA.update_velocity zeroSqrt particleB.position 250
          InteractionType.Attraction 1).velocity.y| ≤ particleA.max_velocity ∧
      |(particleA.update_velocity zeroSqrt particleB.position 250
          InteractionType.Attraction 1).velocity.z| ≤ particleA.max_velocity) ∧
    (particleA.update_velocity zeroSqrt particleB.position 250
        InteractionType.Attraction 1).max_velocity = particleA.max_velocity) :=
  ⟨by decide, by decide,
   update_velocity_components_clamped zeroSqrt particleA particleB.position
     250 InteractionType.Attraction 1 (by decide) (by decide)⟩

/-- C8: in `update_position`, when the tentative position
`position + velocity * timestep` has Euclidean magnitude exceeding
`border` (equivalently, squared magnitude exceeding `border²`, under a
square-root model that is exact and non-negative on this input), the whole
velocity vector is negated and the position recomputed from the negated
velocity is committed unconditionally; otherwise the tentative position is
committed unchanged. -/
theorem update_position_reflection_policy (sqrtFn : ℚ → ℚ) (p : Particle)
    (parameters : Parameters)
    (hb : 0 ≤ parameters.border)
    (hnn : 0 ≤ sqrtFn
      (p.compute_updated_position parameters.timestep).magnitudeSq)
    (hsq : sqrtFn (p.compute_updated_position parameters.timestep).magnitudeSq
        * sqrtFn (p.compute_updated_position parameters.timestep).magnitudeSq
      = (p.compute_updated_position parameters.timestep).magnitudeSq) :
    ((p.compute_updated_position parameters.timestep).magnitudeSq >
        parameters.border * parameters.border →
      p.update_position sqrtFn parameters =
        { p with velocity := -p.velocity,
                 position := p.position
                   + (-p.velocity).smul parameters.timestep }) ∧
    ((p.compute_updated_position parameters.timestep).magnitudeSq ≤
        parameters.border * parameters.border →
      p.update_position sqrtFn parameters =
        { p with position := p.position
            + p.velocity.smul parameters.timestep }) := by
  have hiff :
      (|sqrtFn (p.compute_updated_position parameters.timestep).magnitudeSq|
          > parameters.border) ↔
        ((p.compute_updated_position parameters.timestep).magnitudeSq >
          parameters.border * parameters.border) := by
    rw [abs_of_nonneg hnn]
    constructor
    · intro h
      calc parameters.border * parameters.border
          < sqrtFn (p.compute_updated_position parameters.timestep).magnitudeSq
            * sqrtFn
              (p.compute_updated_position parameters.timestep).magnitudeSq :=
            mul_self_lt_mul_self hb h
        _ = _ := hsq
    · intro h
      by_contra hle
      push_neg at hle
      have := mul_self_le_mul_self hnn hle
      rw [hsq] at this
      exact absurd h (not_lt.mpr this)
  constructor
  · intro hM
    have hguard := hiff.mpr hM
    simp only [Particle.update_position, if_pos hguard]
    rfl
  · intro hM
    have hguard : ¬ (|sqrtFn
        (p.compute_updated_position parameters.timestep).magnitudeSq|
          > parameters.border) :=
      fun hg => absurd (hiff.mp hg) (not_lt.mpr hM)
    simp only [Particle.update_position, if_neg hguard]
    rfl

/-- C8 witness: the reflection statement at a concrete in-bounds move —
unit timestep, border 2, a unit-speed particle starting at the origin,
square-root model `oneSqrt` (exact on the tentative squared magnitude 1). -/
theorem update_position_reflection_policy_witness :
    (0 : ℚ) ≤ borderProbeParameters.border ∧
    (0 : ℚ) ≤ oneSqrt (borderProbeParticle.compute_updated_position
      borderProbeParameters.timestep).magnitudeSq ∧
    oneSqrt (borderProbeParticle.compute_updated_position
        borderProbeParameters.timestep).magnitudeSq
      * oneSqrt (borderProbeParticle.compute_updated_position
        borderProbeParameters.timestep).magnitudeSq
      = (borderProbeParticle.compute_updated_position
        borderProbeParameters.timestep).magnitudeSq ∧
    (((borderProbeParticle.compute_updated_position
          borderProbeParameters.timestep).magnitudeSq >
        borderProbeParameters.border * borderProbeParameters.border →
      borderProbeParticle.update_position oneSqrt borderProbeParameters =
        { borderProbeParticle with
            velocity := -borderProbeParticle.velocity,
            position := borderProbeParticle.position
              + (-borderProbeParticle.velocity).smul
                  borderProbeParameters.timestep }) ∧
    ((borderProbeParticle.compute_updated_position
          borderProbeParameters.timestep).magnitudeSq ≤
        borderProbeParameters.border * borderProbeParameters.border →
      borderProbeParticle.update_position oneSqrt borderProbeParameters =
        { borderProbeParticle with
            position := borderProbeParticle.position
              + borderProbeParticle.velocity.smul
                  borderProbeParameters.timestep })) :=
  ⟨by decide, by decide,
   by norm_num [oneSqrt, borderProbeParticle, borderProbeParameters,
     Particle.compute_updated_position, Vec3.magnitudeSq, Vec3.smul,
     Vec3.add_def, Parameters.default],
   update_position_reflection_policy oneSqrt borderProbeParticle
     borderProbeParameters (by decide) (by decide)
     (by norm_num [oneSqrt, borderProbeParticle, borderProbeParameters,
       Particle.compute_updated_position, Vec3.magnitudeSq, Vec3.smul,
       Vec3.add_def, Parameters.default])⟩

/-- C2 (amended): in one `update_particles` step over a population of size
n ≥ 2, each particle processes its n−1 partners in index order, and for
each partner receives the pairwise velocity update, then a friction
application, then a position commit — so friction is applied and the
position committed n−1 times per particle per step (exactly once only when
n = 2), not once after all pairwise updates. -/
theorem step_interleaves_friction_and_position_per_pair
    (sqrtFn : ℚ → ℚ) (parameters : Parameters) (particles : List Particle)
    (out : List (Particle × List StepEvent)) (i : ℕ)
    (pe : Particle × List StepEvent)
    (h : update_particles_traced sqrtFn particles parameters
      = CallResult.ok out)
    (hpe : out.get? i = some pe)
    (hn : 2 ≤ particles.length) (hi : i < particles.length) :
    pe.2 = ((List.range particles.length).filter (fun j => j != i)).flatMap
        (fun j => [StepEvent.velUpdate j, StepEvent.fricApply,
                   StepEvent.posCommit])
    ∧ pe.2.count StepEvent.fricApply = particles.length - 1
    ∧ pe.2.count StepEvent.posCommit = particles.length - 1 := by
  obtain ⟨pf, evs⟩ := pe
  simp only [update_particles_traced] at h
  obtain ⟨p, hp, hloop⟩ := stepAll_get? sqrtFn parameters
    (particles.map (fun p => p.index)) (particles.map (fun p => p.position))
    (particles.map (fun p => p.mass)) particles.length particles 0 out i
    (pf, evs) h hpe
  rw [Nat.zero_add] at hloop
  have htr := innerLoop_trace sqrtFn parameters
    (particles.map (fun p => p.index)) (particles.map (fun p => p.position))
    (particles.map (fun p => p.mass)) i (List.range particles.length)
    p pf evs hloop
  refine ⟨htr, ?_, ?_⟩
  · rw [show ((pf, evs).2) = evs from rfl, htr, count_bind_fric,
      length_filter_range _ _ hi]
  · rw [show ((pf, evs).2) = evs from rfl, htr, count_bind_pos,
      length_filter_range _ _ hi]

/-- C2 counterexample: with three particles, the first particle's trace in
one step of `update_particles` records two friction applications, not the
single application the claim requires. -/
theorem friction_applied_twice_counterexample :
    traceFricCount (update_particles_traced zeroSqrt
      [particleA, particleB, particleC] Parameters.default) 0 = some 2 ∧
    (2 : ℕ) ≠ 1 := by
  refine ⟨?_, by decide⟩
  norm_num [update_particles_traced, stepAll, innerLoop, traceFricCount,
    Parameters.interaction_by_indices, packIndex, Parameters.default,
    particleA, particleB, particleC, Particle.update_velocity,
    Particle.apply_friction, Particle.update_position,
    Particle.compute_updated_position, Vec3.magnitudeSq, Vec3.smul,
    Vec3.sub_def, Vec3.add_def, Vec3.neg_def, Vec3.divScalar, zeroSqrt,
    clampAxis, signumQ, show List.range 3 = [0, 1, 2] from rfl,
    List.count_cons]
  decide

/-- C2 witness: the per-pair interleaving statement at a concrete
two-particle step (particles A and B, default parameters, zero square-root
model), for the particle at index 0. -/
theorem step_interleaves_friction_and_position_per_pair_witness :
    update_particles_traced zeroSqrt [particleA, particleB] Parameters.default
      = CallResult.ok
          [(particleA,
            [StepEvent.velUpdate 1, StepEvent.fricApply, StepEvent.posCommit]),
           (particleB,
            [StepEvent.velUpdate 0, StepEvent.fricApply,
             StepEvent.posCommit])] ∧
    ([(particleA,
        [StepEvent.velUpdate 1, StepEvent.fricApply, StepEvent.posCommit]),
      (particleB,
        [StepEvent.velUpdate 0, StepEvent.fricApply,
         StepEvent.posCommit])].get? 0
      = some (particleA,
          [StepEvent.velUpdate 1, StepEvent.fricApply,
           StepEvent.posCommit])) ∧
    2 ≤ ([particleA, particleB] : List Particle).length ∧
    0 < ([particleA, particleB] : List Particle).length ∧
    ((particleA,
        [StepEvent.velUpdate 1, StepEvent.fricApply, StepEvent.posCommit]).2
      = ((List.range ([particleA, particleB] : List Particle).length).filter
          (fun j => j != 0)).flatMap
          (fun j => [StepEvent.velUpdate j, StepEvent.fricApply,
                     StepEvent.posCommit])
    ∧ (particleA,
        [StepEvent.velUpdate 1, StepEvent.fricApply,
         StepEvent.posCommit]).2.count StepEvent.fricApply
        = ([particleA, particleB] : List Particle).length - 1
    ∧ (particleA,
        [StepEvent.velUpdate 1, StepEvent.fricApply,
         StepEvent.posCommit]).2.count StepEvent.posCommit
        = ([particleA, particleB] : List Particle).length - 1) := by
  have hstep : update_particles_traced zeroSqrt [particleA, particleB]
      Parameters.default
      = CallResult.ok
          [(particleA,
            [StepEvent.velUpdate 1, StepEvent.fricApply, StepEvent.posCommit]),
           (particleB,
            [StepEvent.velUpdate 0, StepEvent.fricApply,
             StepEvent.posCommit])] := by
    norm_num [update_particles_traced, stepAll, innerLoop,
      Parameters.interaction_by_indices, packIndex, Parameters.default,
      particleA, particleB, Particle.update_velocity,
      Particle.apply_friction, Particle.update_position,
      Particle.compute_updated_position, Vec3.magnitudeSq, Vec3.smul,
      Vec3.sub_def, Vec3.add_def, Vec3.neg_def, Vec3.divScalar, zeroSqrt,
      clampAxis, signumQ, show List.range 2 = [0, 1] from rfl]
  exact ⟨hstep, by decide, by decide, by decide,
    step_interleaves_friction_and_position_per_pair zeroSqrt
      Parameters.default [particleA, particleB] _ 0 _ hstep (by decide)
      (by decide) (by decide)⟩

/-- C3 (amended): for a population of exactly one particle, one
`update_particles` step leaves the particle unchanged — the velocity
update, friction and position commit all sit inside the pairwise loop,
which never runs for a lone particle — so the position does not advance to
`position + velocity * timestep`. -/
theorem single_particle_step_is_identity (sqrtFn : ℚ → ℚ)
    (parameters : Parameters) (p : Particle) :
    update_particles sqrtFn [p] parameters = CallResult.ok [p] := rfl

/-- C3 counterexample: a lone particle with unit velocity, friction 0,
gravity 0 and timestep 1/10 is left exactly in place by one step, while
the claim demands position + velocity * timestep, which differs. -/
theorem single_particle_free_motion_counterexample :
    update_particles zeroSqrt [movingParticle] freeMotionParameters
      = CallResult.ok [movingParticle] ∧
    movingParticle.position + movingParticle.velocity.smul
        freeMotionParameters.timestep ≠ movingParticle.position := by
  refine ⟨rfl, ?_⟩
  norm_num [movingParticle, freeMotionParameters, Vec3.add_def, Vec3.smul,
    Parameters.default, Vec3.mk.injEq]

/-- C9: `parameter_space` deterministically equals the full Cartesian
product of the seven fixed value lists in lexicographic nesting order —
`amount` outermost, `bucket_size` innermost, each combination paired with
the fixed 3-kind mass/interaction template — and contains exactly
6*4*4*3*4*3*5 = 17280 entries. -/
theorem parameter_space_is_ordered_cartesian_product :
    Parameters.parameter_space = parameterSpaceSpec ∧
    Parameters.parameter_space.length = 6 * 4 * 4 * 3 * 4 * 3 * 5 := by
  refine ⟨parameter_space_eq_spec, ?_⟩
  rw [parameter_space_eq_spec, parameterSpaceSpec_length]

/-- C10 (amended): every RunParameters the program constructs — the
default set and every parameter-space element — has strictly positive
border, timestep, max_velocity and bucket_size, and a friction that is
non-negative and either below 1 or equal to 2 (the sweep's friction list
deliberately includes the out-of-range value 2.0). -/
theorem parameters_field_ranges (p : Parameters)
    (hp : p ∈ Parameters.parameter_space ∨ p = Parameters.default) :
    0 < p.border ∧ 0 < p.timestep ∧ 0 < p.max_velocity ∧
      0 < p.bucket_size ∧ 0 ≤ p.friction ∧
      (p.friction < 1 ∨ p.friction = 2) := by
  rcases hp with hmem | rfl
  · rw [parameter_space_eq_spec, mem_parameterSpaceSpec_iff] at hmem
    obtain ⟨a, ha, b, hb, f, hf, t, ht, g, hg, mv, hmv, bs, hbs, rfl⟩ := hmem
    simp only [sweepBorders, sweepFrictions, sweepTimesteps,
      sweepMaxVelocities, sweepBucketSizes, List.mem_cons,
      List.not_mem_nil, or_false] at hb hf ht hmv hbs
    refine ⟨?_, ?_, ?_, ?_, ?_, ?_⟩
    · rcases hb with rfl | rfl | rfl | rfl <;> norm_num [mkSweepParameters]
    · rcases ht with rfl | rfl | rfl <;> norm_num [mkSweepParameters]
    · rcases hmv with rfl | rfl | rfl <;> norm_num [mkSweepParameters]
    · rcases hbs with rfl | rfl | rfl | rfl | rfl <;>
        norm_num [mkSweepParameters]
    · rcases hf with rfl | rfl | rfl | rfl <;> norm_num [mkSweepParameters]
    · rcases hf with rfl | rfl | rfl | rfl <;> norm_num [mkSweepParameters]
  · norm_num [Parameters.default]

/-- C10 witness: the field-range statement at the default parameters. -/
theorem parameters_field_ranges_witness :
    (Parameters.default ∈ Parameters.parameter_space ∨
      Parameters.default = Parameters.default) ∧
    (0 < Parameters.default.border ∧ 0 < Parameters.default.timestep ∧
      0 < Parameters.default.max_velocity ∧
      0 < Parameters.default.bucket_size ∧ 0 ≤ Parameters.default.friction ∧
      (Parameters.default.friction < 1 ∨ Parameters.default.friction = 2)) :=
  ⟨Or.inr rfl, parameters_field_ranges Parameters.default (Or.inr rfl)⟩

/-- C10 counterexample: the parameter space contains an element with
friction 2.0, violating the claimed invariant friction ∈ [0, 1). -/
theorem friction_two_in_parameter_space_counterexample :
    mkSweepParameters 10 200 2 0.0002 0.5 20000 2
      ∈ Parameters.parameter_space ∧
    ¬ ((mkSweepParameters 10 200 2 0.0002 0.5 20000 2).friction < 1) := by
  constructor
  · rw [parameter_space_eq_spec, mem_parameterSpaceSpec_iff]
    refine ⟨10, by norm_num [sweepAmounts], 200, by norm_num [sweepBorders],
      2, by norm_num [sweepFrictions], 0.0002, by norm_num [sweepTimesteps],
      0.5, by norm_num [sweepGravityConstants], 20000,
      by norm_num [sweepMaxVelocities], 2, by norm_num [sweepBucketSizes],
      rfl⟩
  · norm_num [mkSweepParameters]

/-- C1: the sweep is a code bug — for a parameter set P drawn from the
parameter space (here the element with amount = 20), the search run builds
its particle population from the captured default parameters, producing
3 * 10 = 30 particles instead of the 3 * 20 = 60 particles P prescribes;
the step function likewise receives the default parameters (see
`searchRunStep`). -/
theorem sweep_run_ignores_swept_parameters :
    sweepParametersAmount20 ∈ Parameters.parameter_space ∧
    sweepParametersAmount20.amount = 20 ∧
    (searchRunPopulation Parameters.default sweepParametersAmount20
      zeroDraws).length = 30 ∧
    sweepParametersAmount20.particle_parameters.length *
      sweepParametersAmount20.amount = 60 := by
  refine ⟨?_, rfl, ?_, rfl⟩
  · rw [parameter_space_eq_spec, mem_parameterSpaceSpec_iff]
    refine ⟨20, by norm_num [sweepAmounts], 200, by norm_num [sweepBorders],
      0, by norm_num [sweepFrictions], 0.0002, by norm_num [sweepTimesteps],
      0.5, by norm_num [sweepGravityConstants], 20000,
      by norm_num [sweepMaxVelocities], 2, by norm_num [sweepBucketSizes],
      rfl⟩
  · show (create_particles Parameters.default zeroDraws).length = 30
    rw [create_particles_length]
    rfl
